import Mathlib

/-!
Shallow embedding of the water-leak-detection repository.

Volumes, accumulated hours and thresholds are modelled as rationals
(the Python code uses floats but all claims concern the algorithm's
exact arithmetic); timestamps are modelled as integer seconds since
the epoch, so that `datetime.hour` becomes `(t / 3600) % 24` (floor
division, nonnegative remainder, as in Python) and
`(t2 - t1).total_seconds() / 3600` becomes `((t2 - t1 : ℤ) : ℚ) / 3600`.
-/

namespace WaterLeak

/-- Thresholds from `leak_detector.py` / `leak_detector_scalable.py`:
`MIN_FLOW = 0.1`. -/
def MIN_FLOW : ℚ := 1/10

/-- `CONTINUOUS_HOURS = 24`. -/
def CONTINUOUS_HOURS : ℚ := 24

/-- `NIGHT_START = 2`. -/
def NIGHT_START : ℤ := 2

/-- `NIGHT_END = 5`. -/
def NIGHT_END : ℤ := 5

/-- `NIGHT_THRESHOLD = 2.0`. -/
def NIGHT_THRESHOLD : ℚ := 2

/-- A meter reading: `meter_id`, `timestamp` (seconds since epoch),
cumulative `volume_liters`. -/
structure Reading where
  meter_id : String
  timestamp : ℤ
  volume : ℚ
  deriving DecidableEq, Repr

/-- Hour-of-day of an epoch-seconds timestamp, as Python's
`datetime.hour`: floor-divide by 3600, reduce mod 24. -/
def hourOfDay (t : ℤ) : ℤ := (t.ediv 3600).emod 24

/-- `is_night(hour)`: `NIGHT_START <= hour <= NIGHT_END`
(identical in both detector files). -/
def is_night (hour : ℤ) : Bool := NIGHT_START ≤ hour && hour ≤ NIGHT_END

/-- Per-meter state kept in `meter_state` (CSV engine) or the
`meter_state` table (scalable engine). -/
structure MeterState where
  last_volume : ℚ
  last_time : ℤ
  continuous_hours : ℚ
  night_flow : ℚ
  deriving DecidableEq, Repr

/-- The two alert strings the engines can return. -/
inductive AlertType where
  | CONTINUOUS_FLOW_LEAK
  | NIGHT_FLOW_LEAK
  deriving DecidableEq, Repr

/-- `delta = volume - state["last_volume"]` (local variable of both
engines). -/
def delta (s : MeterState) (r : Reading) : ℚ := r.volume - s.last_volume

/-- `hours = (timestamp - state["last_time"]).total_seconds() / 3600`
(local variable of both engines). -/
def elapsed_hours (s : MeterState) (r : Reading) : ℚ :=
  ((r.timestamp - s.last_time : ℤ) : ℚ) / 3600

/-- The continuous-flow accumulator update, identical in both engines:
`if delta > MIN_FLOW: continuous_hours += hours else: continuous_hours = 0`. -/
def next_continuous_hours (s : MeterState) (r : Reading) : ℚ :=
  if delta s r > MIN_FLOW then s.continuous_hours + elapsed_hours s r else 0

/-- The night-flow update of `leak_detector.py`:
`if is_night(timestamp.hour): night_flow += delta` — no `else` branch,
so outside the night window `night_flow` is left unchanged. -/
def next_night_flow (s : MeterState) (r : Reading) : ℚ :=
  if is_night (hourOfDay r.timestamp) then s.night_flow + delta s r
  else s.night_flow

/-- The night-flow update of `leak_detector_scalable.py`:
`if is_night(...): night_flow += delta else: night_flow = 0`. -/
def next_night_flow_scalable (s : MeterState) (r : Reading) : ℚ :=
  if is_night (hourOfDay r.timestamp) then s.night_flow + delta s r
  else 0

/-- `process_reading` from `leak_detector.py`, as a pure transition
`(previous state or none, reading) ↦ (new state, alert or none)`.
The `meter_state` dictionary lookup/initialisation becomes the `Option`
argument. -/
def process_reading (st : Option MeterState) (r : Reading) :
    MeterState × Option AlertType :=
  match st with
  | none =>
    ({ last_volume := r.volume, last_time := r.timestamp,
       continuous_hours := 0, night_flow := 0 }, none)
  | some s =>
    let ch := next_continuous_hours s r
    let nf := next_night_flow s r
    ({ last_volume := r.volume, last_time := r.timestamp,
       continuous_hours := ch, night_flow := nf },
     if ch ≥ CONTINUOUS_HOURS then some .CONTINUOUS_FLOW_LEAK
     else if nf ≥ NIGHT_THRESHOLD then some .NIGHT_FLOW_LEAK
     else none)

/-- `process_reading_scalable` from `leak_detector_scalable.py`, as the
same pure transition (the `get_meter_state`/`update_meter_state` calls
become the `Option` argument and the returned state; `insert_alert`
becomes the returned alert). Unlike `process_reading`, it resets
`night_flow = 0` outside the night window. -/
def process_reading_scalable (st : Option MeterState) (r : Reading) :
    MeterState × Option AlertType :=
  match st with
  | none =>
    ({ last_volume := r.volume, last_time := r.timestamp,
       continuous_hours := 0, night_flow := 0 }, none)
  | some s =>
    let ch := next_continuous_hours s r
    let nf := next_night_flow_scalable s r
    ({ last_volume := r.volume, last_time := r.timestamp,
       continuous_hours := ch, night_flow := nf },
     if ch ≥ CONTINUOUS_HOURS then some .CONTINUOUS_FLOW_LEAK
     else if nf ≥ NIGHT_THRESHOLD then some .NIGHT_FLOW_LEAK
     else none)

example :
    process_reading_scalable none ⟨"m1", 0, 100⟩ =
      (⟨100, 0, 0, 0⟩, none) := by
  simp [process_reading_scalable]

example :
    process_reading (some ⟨100, 0, 0, 0⟩) ⟨"m1", 3600, 101⟩ =
      (⟨101, 3600, 1, 0⟩, none) := by
  simp [process_reading, next_continuous_hours, next_night_flow,
    delta, elapsed_hours, MIN_FLOW, CONTINUOUS_HOURS, NIGHT_THRESHOLD,
    hourOfDay, is_night, NIGHT_START, NIGHT_END]
  norm_num

-- 02:00 start, 1.2 L at 02:30 then 1.3 L at 03:00 triggers the night alert
example :
    (process_reading_scalable (some ⟨100, 2*3600, 0, 0⟩)
      ⟨"m1", 2*3600 + 1800, 101 + 1/5⟩).2 = none := by
  simp [process_reading_scalable, next_continuous_hours, next_night_flow_scalable,
    delta, elapsed_hours, MIN_FLOW, CONTINUOUS_HOURS, NIGHT_THRESHOLD,
    hourOfDay, is_night, NIGHT_START, NIGHT_END]
  norm_num

example :
    (process_reading_scalable
      (some (process_reading_scalable (some ⟨100, 2*3600, 0, 0⟩)
        ⟨"m1", 2*3600 + 1800, 101 + 1/5⟩).1)
      ⟨"m1", 3*3600, 102 + 1/2⟩).2 = some .NIGHT_FLOW_LEAK := by
  simp [process_reading_scalable, next_continuous_hours, next_night_flow_scalable,
    delta, elapsed_hours, MIN_FLOW, CONTINUOUS_HOURS, NIGHT_THRESHOLD,
    hourOfDay, is_night, NIGHT_START, NIGHT_END]
  norm_num

/-- Predicate used by the `UNIQUE(meter_id, timestamp)` constraint of
the `meter_readings` table: does a row carry this dedup key? -/
def matches_key (m : String) (t : ℤ) (row : Reading) : Bool :=
  row.meter_id == m && row.timestamp == t

/-- `insert_reading` from `db.py`: the `INSERT` succeeds and returns
`True` unless the `UNIQUE(meter_id, timestamp)` constraint fires
(`sqlite3.IntegrityError`), in which case the table is unchanged and
the function returns `False`. The table is modelled as the list of its
rows in insertion order. -/
def insert_reading (store : List Reading) (m : String) (t : ℤ) (v : ℚ) :
    List Reading × Bool :=
  if store.any (matches_key m t) then (store, false)
  else (store ++ [⟨m, t, v⟩], true)

/-- The volume stored under a dedup key (first matching row), for
stating what a failed duplicate insert leaves behind. -/
def stored_volume (store : List Reading) (m : String) (t : ℤ) : Option ℚ :=
  (store.find? (matches_key m t)).map Reading.volume

/-- A row of the `meter_readings` table as fetched by
`get_unprocessed_readings`: `id, meter_id, timestamp, volume_liters`.
The table is modelled as the list of its rows in `id` order
(`id INTEGER PRIMARY KEY AUTOINCREMENT` assigns ids in insertion
order, and the query is `ORDER BY id ASC`). -/
structure DbRow where
  id : ℕ
  meter_id : String
  timestamp : ℤ
  volume : ℚ
  deriving DecidableEq, Repr

/-- The `Reading` carried by a table row. -/
def DbRow.reading (row : DbRow) : Reading :=
  ⟨row.meter_id, row.timestamp, row.volume⟩

/-- `get_unprocessed_readings` from `db.py`:
`SELECT ... WHERE id > ? ORDER BY id ASC`. -/
def get_unprocessed_readings (store : List DbRow) (last_processed_id : ℕ) :
    List DbRow :=
  store.filter (fun row => decide (last_processed_id < row.id))

/-- The `meter_state` table, as a map from `meter_id` to its row. -/
def StateTable : Type := String → Option MeterState

/-- One reading applied by the monitor loop body: `process_reading_scalable`
reads the meter's state row and writes the new one back
(`update_meter_state`). -/
def apply_reading (states : StateTable) (row : DbRow) : StateTable :=
  fun m =>
    if m = row.meter_id then
      some (process_reading_scalable (states row.meter_id) row.reading).1
    else states m

/-- One iteration of the `for reading in readings` loop of
`monitor_new_readings` in `app.py`: process the reading, then
`last_processed_id = reading['id']`. -/
def monitor_step (acc : StateTable × ℕ) (row : DbRow) : StateTable × ℕ :=
  (apply_reading acc.1 row, row.id)

/-- One Monitor pass over the store: fetch the readings with
`id > last_processed_id` in ascending id order and run the loop body on
each. The pass may stop after `k` readings (modelling a failure that
aborts the loop mid-pass; `k ≥` the fetch length is a completed pass);
the watermark then stays at the last applied reading's id. -/
def monitor_pass (states : StateTable) (w : ℕ) (store : List DbRow)
    (k : ℕ) : StateTable × ℕ :=
  ((get_unprocessed_readings store w).take k).foldl monitor_step (states, w)

/-- A sequence of Monitor passes over a fixed store, the i-th pass
applying at most `ks[i]` readings. -/
def monitor_run (states : StateTable) (w : ℕ) (store : List DbRow) :
    List ℕ → StateTable × ℕ
  | [] => (states, w)
  | k :: ks => monitor_run (monitor_pass states w store k).1
      (monitor_pass states w store k).2 store ks

/-- The ids of the readings a single pass actually applies. -/
def pass_applied_ids (w : ℕ) (store : List DbRow) (k : ℕ) : List ℕ :=
  ((get_unprocessed_readings store w).take k).map DbRow.id

/-- The watermark after a single pass: the loop overwrites
`last_processed_id` with each applied reading's id in turn. -/
def pass_watermark (w : ℕ) (store : List DbRow) (k : ℕ) : ℕ :=
  (pass_applied_ids w store k).foldl (fun _ i => i) w

/-- The ids applied across a sequence of passes, in application order. -/
def run_applied_ids (w : ℕ) (store : List DbRow) : List ℕ → List ℕ
  | [] => []
  | k :: ks =>
    pass_applied_ids w store k ++
      run_applied_ids (pass_watermark w store k) store ks

/-! ### Unfolding lemmas for the two engines -/

lemma process_reading_some (s : MeterState) (r : Reading) :
    process_reading (some s) r =
      ({ last_volume := r.volume, last_time := r.timestamp,
         continuous_hours := next_continuous_hours s r,
         night_flow := next_night_flow s r },
       if next_continuous_hours s r ≥ CONTINUOUS_HOURS then
         some AlertType.CONTINUOUS_FLOW_LEAK
       else if next_night_flow s r ≥ NIGHT_THRESHOLD then
         some AlertType.NIGHT_FLOW_LEAK
       else none) := rfl

lemma process_reading_scalable_some (s : MeterState) (r : Reading) :
    process_reading_scalable (some s) r =
      ({ last_volume := r.volume, last_time := r.timestamp,
         continuous_hours := next_continuous_hours s r,
         night_flow := next_night_flow_scalable s r },
       if next_continuous_hours s r ≥ CONTINUOUS_HOURS then
         some AlertType.CONTINUOUS_FLOW_LEAK
       else if next_night_flow_scalable s r ≥ NIGHT_THRESHOLD then
         some AlertType.NIGHT_FLOW_LEAK
       else none) := rfl

/-! ### Claim theorems about the engines -/

/-- C9: for every meter with no previous state, processing its first
reading creates a state with `last_volume` = the reading's volume,
`last_timestamp` = the reading's timestamp, `continuous_hours = 0` and
`night_flow = 0`, and emits no alert — for every volume and timestamp,
in both engines. -/
theorem first_reading_initializes (r : Reading) :
    process_reading none r =
      ({ last_volume := r.volume, last_time := r.timestamp,
         continuous_hours := 0, night_flow := 0 }, none)
    ∧ process_reading_scalable none r =
      ({ last_volume := r.volume, last_time := r.timestamp,
         continuous_hours := 0, night_flow := 0 }, none) :=
  ⟨rfl, rfl⟩

/-- C5: for every non-first reading, after updating the accumulators
both engines decide the alert in this order: `CONTINUOUS_FLOW_LEAK` if
`continuous_hours ≥ CONTINUOUS_HOURS` (24), else `NIGHT_FLOW_LEAK` if
`night_flow ≥ NIGHT_THRESHOLD` (2.0), else no alert; the
continuous-flow alert wins when both thresholds are met. -/
theorem alert_priority_order (s : MeterState) (r : Reading) :
    (process_reading (some s) r).2 =
      (if (process_reading (some s) r).1.continuous_hours ≥ CONTINUOUS_HOURS
       then some AlertType.CONTINUOUS_FLOW_LEAK
       else if (process_reading (some s) r).1.night_flow ≥ NIGHT_THRESHOLD
       then some AlertType.NIGHT_FLOW_LEAK
       else none)
    ∧ (process_reading_scalable (some s) r).2 =
      (if (process_reading_scalable (some s) r).1.continuous_hours ≥
          CONTINUOUS_HOURS
       then some AlertType.CONTINUOUS_FLOW_LEAK
       else if (process_reading_scalable (some s) r).1.night_flow ≥
          NIGHT_THRESHOLD
       then some AlertType.NIGHT_FLOW_LEAK
       else none) :=
  ⟨rfl, rfl⟩

/-- C6: for every existing state and reading, if
`delta > MIN_FLOW` (0.1) both engines set `continuous_hours` to the old
value plus the elapsed hours, and if `delta ≤ MIN_FLOW` they set it to
0 regardless of any preceding run of qualifying deltas. -/
theorem continuous_hours_update_rule (s : MeterState) (r : Reading) :
    (delta s r > MIN_FLOW →
      (process_reading (some s) r).1.continuous_hours
          = s.continuous_hours + elapsed_hours s r
        ∧ (process_reading_scalable (some s) r).1.continuous_hours
          = s.continuous_hours + elapsed_hours s r)
    ∧ (delta s r ≤ MIN_FLOW →
      (process_reading (some s) r).1.continuous_hours = 0
        ∧ (process_reading_scalable (some s) r).1.continuous_hours = 0) := by
  constructor
  · intro h
    have hch : next_continuous_hours s r
        = s.continuous_hours + elapsed_hours s r := if_pos h
    exact ⟨hch, hch⟩
  · intro h
    have hch : next_continuous_hours s r = 0 := if_neg (not_lt.mpr h)
    exact ⟨hch, hch⟩

/-- Witness for C6 at concrete inputs: a qualifying delta (1 L over one
hour, prior accumulator 5 h) adds the elapsed hour, and a non-qualifying
delta (0.05 L) resets the accumulator to 0. -/
theorem continuous_hours_update_rule_witness :
    ((process_reading (some ⟨100, 0, 5, 0⟩) ⟨"m1", 3600, 101⟩).1.continuous_hours
        = (5 : ℚ) + elapsed_hours ⟨100, 0, 5, 0⟩ ⟨"m1", 3600, 101⟩
      ∧ (process_reading_scalable
          (some ⟨100, 0, 5, 0⟩) ⟨"m1", 3600, 101⟩).1.continuous_hours
        = (5 : ℚ) + elapsed_hours ⟨100, 0, 5, 0⟩ ⟨"m1", 3600, 101⟩)
    ∧ ((process_reading
          (some ⟨100, 0, 5, 0⟩) ⟨"m1", 3600, 100 + 1/20⟩).1.continuous_hours = 0
      ∧ (process_reading_scalable
          (some ⟨100, 0, 5, 0⟩) ⟨"m1", 3600, 100 + 1/20⟩).1.continuous_hours
        = 0) :=
  ⟨(continuous_hours_update_rule ⟨100, 0, 5, 0⟩ ⟨"m1", 3600, 101⟩).1
      (by norm_num [delta, MIN_FLOW]),
   (continuous_hours_update_rule ⟨100, 0, 5, 0⟩ ⟨"m1", 3600, 100 + 1/20⟩).2
      (by norm_num [delta, MIN_FLOW])⟩

/-- C10: the continuous-flow accumulator adds elapsed wall-clock hours,
not reading counts — from a state with `continuous_hours = 0`, a single
reading with a qualifying delta whose elapsed time is at least 24 hours
makes both engines emit `CONTINUOUS_FLOW_LEAK` immediately. -/
theorem single_reading_continuous_alert (s : MeterState) (r : Reading)
    (h0 : s.continuous_hours = 0) (hd : delta s r > MIN_FLOW)
    (hh : elapsed_hours s r ≥ CONTINUOUS_HOURS) :
    (process_reading (some s) r).2 = some AlertType.CONTINUOUS_FLOW_LEAK
    ∧ (process_reading_scalable (some s) r).2
      = some AlertType.CONTINUOUS_FLOW_LEAK := by
  have hge : next_continuous_hours s r ≥ CONTINUOUS_HOURS := by
    rw [next_continuous_hours, if_pos hd, h0, zero_add]; exact hh
  constructor
  · rw [process_reading_some]
    exact if_pos hge
  · rw [process_reading_scalable_some]
    exact if_pos hge

/-- Witness for C10: a meter last seen 24 hours ago with a 10 L delta
alerts on that single reading. -/
theorem single_reading_continuous_alert_witness :
    (process_reading (some ⟨0, 0, 0, 0⟩) ⟨"m1", 86400, 10⟩).2
      = some AlertType.CONTINUOUS_FLOW_LEAK
    ∧ (process_reading_scalable (some ⟨0, 0, 0, 0⟩) ⟨"m1", 86400, 10⟩).2
      = some AlertType.CONTINUOUS_FLOW_LEAK :=
  single_reading_continuous_alert ⟨0, 0, 0, 0⟩ ⟨"m1", 86400, 10⟩ rfl
    (by norm_num [delta, MIN_FLOW])
    (by norm_num [elapsed_hours, CONTINUOUS_HOURS])

/-- C1 (amended): both engines add `delta` to `night_flow` when the
reading's hour-of-day lies in `[NIGHT_START, NIGHT_END]`; outside that
window `process_reading_scalable` resets `night_flow` to 0, while
`process_reading` leaves it unchanged. -/
theorem night_flow_window_rule (s : MeterState) (r : Reading) :
    (is_night (hourOfDay r.timestamp) = true →
      (process_reading_scalable (some s) r).1.night_flow
          = s.night_flow + delta s r
        ∧ (process_reading (some s) r).1.night_flow
          = s.night_flow + delta s r)
    ∧ (is_night (hourOfDay r.timestamp) = false →
      (process_reading_scalable (some s) r).1.night_flow = 0
        ∧ (process_reading (some s) r).1.night_flow = s.night_flow) := by
  constructor
  · intro h
    exact ⟨if_pos h, if_pos h⟩
  · intro h
    have h' : ¬ is_night (hourOfDay r.timestamp) = true := by simp [h]
    exact ⟨if_neg h', if_neg h'⟩

/-- Witness for C1 (amended) at concrete inputs: a reading at 03:00
(inside the window) and one at 13:00 (outside). -/
theorem night_flow_window_rule_witness :
    ((process_reading_scalable
        (some ⟨100, 2*3600, 0, 5⟩) ⟨"m1", 3*3600, 101⟩).1.night_flow
          = (5 : ℚ) + delta ⟨100, 2*3600, 0, 5⟩ ⟨"m1", 3*3600, 101⟩
      ∧ (process_reading
        (some ⟨100, 2*3600, 0, 5⟩) ⟨"m1", 3*3600, 101⟩).1.night_flow
          = (5 : ℚ) + delta ⟨100, 2*3600, 0, 5⟩ ⟨"m1", 3*3600, 101⟩)
    ∧ ((process_reading_scalable
        (some ⟨100, 12*3600, 0, 5⟩) ⟨"m1", 13*3600, 110⟩).1.night_flow = 0
      ∧ (process_reading
        (some ⟨100, 12*3600, 0, 5⟩) ⟨"m1", 13*3600, 110⟩).1.night_flow
          = (5 : ℚ)) :=
  ⟨(night_flow_window_rule ⟨100, 2*3600, 0, 5⟩ ⟨"m1", 3*3600, 101⟩).1
      (by decide),
   (night_flow_window_rule ⟨100, 12*3600, 0, 5⟩ ⟨"m1", 13*3600, 110⟩).2
      (by decide)⟩

/-- C1 counterexample: `process_reading` (the CSV engine, one of the two
implementations the claim is about) does not reset `night_flow` outside
the night window — a 10 L delta at 13:00 with prior `night_flow = 5`
leaves `night_flow = 5 ≠ 0`. -/
theorem night_flow_no_reset_counterexample :
    ¬ (process_reading
        (some ⟨100, 12*3600, 0, 5⟩) ⟨"m1", 13*3600, 110⟩).1.night_flow
      = 0 := by
  have h : (process_reading
      (some ⟨100, 12*3600, 0, 5⟩) ⟨"m1", 13*3600, 110⟩).1.night_flow
      = 5 := by
    rw [process_reading_some]
    show next_night_flow ⟨100, 12*3600, 0, 5⟩ ⟨"m1", 13*3600, 110⟩ = 5
    rw [next_night_flow, if_neg (by decide)]
  rw [h]
  norm_num

/-- Re-application lemma for the CSV engine: applying a reading to a
state that already carries its volume (so `delta = 0`) resets
`continuous_hours`, keeps `night_flow`, and can only emit the
night-flow alert. -/
lemma process_reading_rev (t : MeterState) (r : Reading)
    (hv : t.last_volume = r.volume) :
    process_reading (some t) r =
      ({ last_volume := r.volume, last_time := r.timestamp,
         continuous_hours := 0, night_flow := t.night_flow },
       if t.night_flow ≥ NIGHT_THRESHOLD then some AlertType.NIGHT_FLOW_LEAK
       else none) := by
  have hd : delta t r = 0 := by rw [delta, hv, sub_self]
  have hch : next_continuous_hours t r = 0 := by
    rw [next_continuous_hours, hd, if_neg (by norm_num [MIN_FLOW])]
  have hnf : next_night_flow t r = t.night_flow := by
    rw [next_night_flow, hd]
    split <;> simp
  rw [process_reading_some, hch, hnf,
    if_neg (by norm_num [CONTINUOUS_HOURS] : ¬ ((0:ℚ) ≥ CONTINUOUS_HOURS))]

/-- Re-application lemma for the scalable engine. -/
lemma process_reading_scalable_rev (t : MeterState) (r : Reading)
    (hv : t.last_volume = r.volume) :
    process_reading_scalable (some t) r =
      ({ last_volume := r.volume, last_time := r.timestamp,
         continuous_hours := 0,
         night_flow := if is_night (hourOfDay r.timestamp) then t.night_flow
           else 0 },
       if (if is_night (hourOfDay r.timestamp) then t.night_flow else 0)
           ≥ NIGHT_THRESHOLD then
         some AlertType.NIGHT_FLOW_LEAK
       else none) := by
  have hd : delta t r = 0 := by rw [delta, hv, sub_self]
  have hch : next_continuous_hours t r = 0 := by
    rw [next_continuous_hours, hd, if_neg (by norm_num [MIN_FLOW])]
  have hnf : next_night_flow_scalable t r
      = if is_night (hourOfDay r.timestamp) then t.night_flow else 0 := by
    rw [next_night_flow_scalable, hd]
    split <;> simp
  rw [process_reading_scalable_some, hch, hnf,
    if_neg (by norm_num [CONTINUOUS_HOURS] : ¬ ((0:ℚ) ≥ CONTINUOUS_HOURS))]

/-- C2 (amended): re-applying the reading that produced a state is not
idempotent in general; it preserves `last_volume`, `last_time` and
`night_flow` but resets `continuous_hours` to 0 (the repeated reading
has `delta = 0 ≤ MIN_FLOW`), and a further re-application returns
exactly the same state and alert (fixed point from the second
application on), in both engines. -/
theorem reapply_reading_resets_continuous (s : MeterState) (r : Reading) :
    (∀ s1, s1 = (process_reading (some s) r).1 →
      (process_reading (some s1) r).1.last_volume = s1.last_volume
      ∧ (process_reading (some s1) r).1.last_time = s1.last_time
      ∧ (process_reading (some s1) r).1.night_flow = s1.night_flow
      ∧ (process_reading (some s1) r).1.continuous_hours = 0
      ∧ process_reading (some (process_reading (some s1) r).1) r
          = process_reading (some s1) r)
    ∧ (∀ s1, s1 = (process_reading_scalable (some s) r).1 →
      (process_reading_scalable (some s1) r).1.last_volume = s1.last_volume
      ∧ (process_reading_scalable (some s1) r).1.last_time = s1.last_time
      ∧ (process_reading_scalable (some s1) r).1.night_flow = s1.night_flow
      ∧ (process_reading_scalable (some s1) r).1.continuous_hours = 0
      ∧ process_reading_scalable
          (some (process_reading_scalable (some s1) r).1) r
          = process_reading_scalable (some s1) r) := by
  constructor
  · rintro s1 rfl
    have hv : (process_reading (some s) r).1.last_volume = r.volume := rfl
    rw [process_reading_rev _ r hv]
    refine ⟨hv.symm, rfl, rfl, rfl, ?_⟩
    rw [process_reading_rev _ r rfl]
  · rintro s1 rfl
    have hv : (process_reading_scalable (some s) r).1.last_volume
        = r.volume := rfl
    rw [process_reading_scalable_rev _ r hv]
    have hnf0 : ¬ is_night (hourOfDay r.timestamp) = true →
        (process_reading_scalable (some s) r).1.night_flow = 0 := by
      intro hn
      show next_night_flow_scalable s r = 0
      rw [next_night_flow_scalable, if_neg hn]
    by_cases hn : is_night (hourOfDay r.timestamp) = true
    · refine ⟨hv.symm, rfl, by simp [hn], rfl, ?_⟩
      rw [process_reading_scalable_rev _ r rfl]
      simp [hn]
    · refine ⟨hv.symm, rfl, by simp [hn, hnf0 hn], rfl, ?_⟩
      rw [process_reading_scalable_rev _ r rfl]
      simp [hn]

/-- Witness for C2 (amended) at a concrete input. -/
theorem reapply_reading_resets_continuous_witness :
    (process_reading
        (some (process_reading (some ⟨0, 0, 0, 0⟩) ⟨"m1", 3600, 10⟩).1)
        ⟨"m1", 3600, 10⟩).1.continuous_hours = 0
    ∧ (process_reading_scalable
        (some (process_reading_scalable (some ⟨0, 0, 0, 0⟩) ⟨"m1", 3600, 10⟩).1)
        ⟨"m1", 3600, 10⟩).1.continuous_hours = 0 :=
  ⟨((reapply_reading_resets_continuous ⟨0, 0, 0, 0⟩ ⟨"m1", 3600, 10⟩).1
      _ rfl).2.2.2.1,
   ((reapply_reading_resets_continuous ⟨0, 0, 0, 0⟩ ⟨"m1", 3600, 10⟩).2
      _ rfl).2.2.2.1⟩

/-- C2 counterexample: the transition is not idempotent as claimed —
for state S0 = (0 L, t=0, 0 h, 0 L) and reading R = (t=3600 s, 10 L),
applying R yields S with `continuous_hours = 1`, and re-applying R to S
yields `continuous_hours = 0`, a different state. -/
theorem reapply_reading_not_idempotent :
    ¬ (process_reading_scalable
        (some (process_reading_scalable (some ⟨0, 0, 0, 0⟩) ⟨"m1", 3600, 10⟩).1)
        ⟨"m1", 3600, 10⟩).1
      = (process_reading_scalable (some ⟨0, 0, 0, 0⟩) ⟨"m1", 3600, 10⟩).1 := by
  simp only [process_reading_scalable_some, next_continuous_hours,
    next_night_flow_scalable, delta, elapsed_hours, MIN_FLOW,
    hourOfDay, is_night, NIGHT_START, NIGHT_END]
  norm_num

/-- C4 (amended): nonnegativity of the accumulators is preserved by
both engines provided the reading is in order (`last_time ≤ timestamp`)
and the cumulative counter does not decrease
(`last_volume ≤ volume`). -/
theorem accumulators_nonneg_of_ordered (s : MeterState) (r : Reading)
    (h1 : 0 ≤ s.continuous_hours) (h2 : 0 ≤ s.night_flow)
    (h3 : s.last_time ≤ r.timestamp) (h4 : s.last_volume ≤ r.volume) :
    (0 ≤ (process_reading (some s) r).1.continuous_hours
      ∧ 0 ≤ (process_reading (some s) r).1.night_flow)
    ∧ (0 ≤ (process_reading_scalable (some s) r).1.continuous_hours
      ∧ 0 ≤ (process_reading_scalable (some s) r).1.night_flow) := by
  have hh : 0 ≤ elapsed_hours s r := by
    rw [elapsed_hours]
    apply div_nonneg _ (by norm_num)
    exact_mod_cast Int.sub_nonneg.mpr h3
  have hd : 0 ≤ delta s r := sub_nonneg.mpr h4
  have hch : 0 ≤ next_continuous_hours s r := by
    rw [next_continuous_hours]
    split
    · exact add_nonneg h1 hh
    · exact le_refl 0
  have hnf : 0 ≤ next_night_flow s r := by
    rw [next_night_flow]
    split
    · exact add_nonneg h2 hd
    · exact h2
  have hnfs : 0 ≤ next_night_flow_scalable s r := by
    rw [next_night_flow_scalable]
    split
    · exact add_nonneg h2 hd
    · exact le_refl 0
  exact ⟨⟨hch, hnf⟩, ⟨hch, hnfs⟩⟩

/-- Witness for C4 (amended) at a concrete in-order reading. -/
theorem accumulators_nonneg_of_ordered_witness :
    (0 ≤ (process_reading (some ⟨100, 0, 1, 1⟩) ⟨"m1", 3600, 101⟩).1.continuous_hours
      ∧ 0 ≤ (process_reading (some ⟨100, 0, 1, 1⟩) ⟨"m1", 3600, 101⟩).1.night_flow)
    ∧ (0 ≤ (process_reading_scalable
          (some ⟨100, 0, 1, 1⟩) ⟨"m1", 3600, 101⟩).1.continuous_hours
      ∧ 0 ≤ (process_reading_scalable
          (some ⟨100, 0, 1, 1⟩) ⟨"m1", 3600, 101⟩).1.night_flow) :=
  accumulators_nonneg_of_ordered ⟨100, 0, 1, 1⟩ ⟨"m1", 3600, 101⟩
    (by norm_num) (by norm_num) (by norm_num) (by norm_num)

/-- C4 counterexample: with an out-of-order reading (timestamp two
hours before `last_time`) and a qualifying delta, both accumulator
rules add a negative elapsed time, so `continuous_hours` becomes
`-2 < 0` — the claimed invariant fails for out-of-order readings. -/
theorem accumulators_nonneg_counterexample :
    ¬ (0 ≤ (process_reading_scalable
        (some ⟨0, 7200, 0, 0⟩) ⟨"m1", 0, 10⟩).1.continuous_hours) := by
  have h : (process_reading_scalable
      (some ⟨0, 7200, 0, 0⟩) ⟨"m1", 0, 10⟩).1.continuous_hours
      = 0 + ((0 - 7200 : ℤ) : ℚ) / 3600 :=
    if_pos (by norm_num [delta, MIN_FLOW])
  rw [h]
  norm_num

/-- Threshold helper: if either updated accumulator of
`process_reading` meets its threshold, the emitted alert is not
`none`. -/
lemma process_reading_alert_of_threshold (s : MeterState) (r : Reading)
    (h : (process_reading (some s) r).1.continuous_hours ≥ CONTINUOUS_HOURS
      ∨ (process_reading (some s) r).1.night_flow ≥ NIGHT_THRESHOLD) :
    (process_reading (some s) r).2 ≠ none := by
  rw [process_reading_some]
  by_cases hc : next_continuous_hours s r ≥ CONTINUOUS_HOURS
  · simp [hc]
  · have hn : next_night_flow s r ≥ NIGHT_THRESHOLD := by
      rcases h with h | h
      · exact absurd h hc
      · exact h
    simp [hc, hn]

/-- Threshold helper for `process_reading_scalable`. -/
lemma process_reading_scalable_alert_of_threshold (s : MeterState)
    (r : Reading)
    (h : (process_reading_scalable (some s) r).1.continuous_hours
          ≥ CONTINUOUS_HOURS
      ∨ (process_reading_scalable (some s) r).1.night_flow
          ≥ NIGHT_THRESHOLD) :
    (process_reading_scalable (some s) r).2 ≠ none := by
  rw [process_reading_scalable_some]
  by_cases hc : next_continuous_hours s r ≥ CONTINUOUS_HOURS
  · simp [hc]
  · have hn : next_night_flow_scalable s r ≥ NIGHT_THRESHOLD := by
      rcases h with h | h
      · exact absurd h hc
      · exact h
    simp [hc, hn]

/-- C7: emitting an alert does not reset either accumulator — the
output state carries exactly the values computed by the accumulator
rules, and any subsequent reading whose updated accumulators still meet
a threshold emits an alert again (level-triggered), in both engines. -/
theorem alert_emission_preserves_accumulators (s : MeterState)
    (r : Reading) :
    (∀ s' a, process_reading (some s) r = (s', some a) →
      s'.continuous_hours = next_continuous_hours s r
      ∧ s'.night_flow = next_night_flow s r
      ∧ ∀ r2 s2 a2, process_reading (some s') r2 = (s2, a2) →
          (s2.continuous_hours ≥ CONTINUOUS_HOURS
            ∨ s2.night_flow ≥ NIGHT_THRESHOLD) → a2 ≠ none)
    ∧ (∀ s' a, process_reading_scalable (some s) r = (s', some a) →
      s'.continuous_hours = next_continuous_hours s r
      ∧ s'.night_flow = next_night_flow_scalable s r
      ∧ ∀ r2 s2 a2, process_reading_scalable (some s') r2 = (s2, a2) →
          (s2.continuous_hours ≥ CONTINUOUS_HOURS
            ∨ s2.night_flow ≥ NIGHT_THRESHOLD) → a2 ≠ none) := by
  constructor
  · intro s' a h
    have hs' : s' = (process_reading (some s) r).1 := by rw [h]
    subst hs'
    refine ⟨rfl, rfl, ?_⟩
    intro r2 s2 a2 h2 hthr
    have ha2 : a2 = (process_reading (some (process_reading (some s) r).1) r2).2 := by
      rw [h2]
    have hs2 : s2 = (process_reading (some (process_reading (some s) r).1) r2).1 := by
      rw [h2]
    rw [ha2]
    exact process_reading_alert_of_threshold _ _ (by rw [← hs2]; exact hthr)
  · intro s' a h
    have hs' : s' = (process_reading_scalable (some s) r).1 := by rw [h]
    subst hs'
    refine ⟨rfl, rfl, ?_⟩
    intro r2 s2 a2 h2 hthr
    have ha2 : a2 = (process_reading_scalable
        (some (process_reading_scalable (some s) r).1) r2).2 := by
      rw [h2]
    have hs2 : s2 = (process_reading_scalable
        (some (process_reading_scalable (some s) r).1) r2).1 := by
      rw [h2]
    rw [ha2]
    exact process_reading_scalable_alert_of_threshold _ _
      (by rw [← hs2]; exact hthr)

/-- Witness for C7: a transition that emits `CONTINUOUS_FLOW_LEAK`
(prior accumulator 30 h, one more qualifying hour) keeps
`continuous_hours` at the rule value 31, not 0. -/
theorem alert_emission_preserves_accumulators_witness :
    (process_reading_scalable (some ⟨0, 0, 30, 0⟩) ⟨"m1", 3600, 1⟩).1.continuous_hours
      = next_continuous_hours ⟨0, 0, 30, 0⟩ ⟨"m1", 3600, 1⟩ :=
  (((alert_emission_preserves_accumulators ⟨0, 0, 30, 0⟩ ⟨"m1", 3600, 1⟩).2
      (process_reading_scalable (some ⟨0, 0, 30, 0⟩) ⟨"m1", 3600, 1⟩).1
      AlertType.CONTINUOUS_FLOW_LEAK
      (by
        rw [process_reading_scalable_some]
        have hge : next_continuous_hours ⟨0, 0, 30, 0⟩ ⟨"m1", 3600, 1⟩
            ≥ CONTINUOUS_HOURS := by
          rw [next_continuous_hours, if_pos
            (by norm_num [delta, MIN_FLOW])]
          norm_num [elapsed_hours, CONTINUOUS_HOURS]
        rw [if_pos hge])).1)

/-- C8: `insert_reading` returns `false` iff a reading with the same
`(meter_id, timestamp)` key already exists; calling it twice with
identical key and different volumes returns `inserted = false` the
second time, leaves the table unchanged, and (when the key was fresh)
the stored volume is the first call's volume. -/
theorem insert_reading_duplicate_key (store : List Reading) (m : String)
    (t : ℤ) (v v' : ℚ) :
    ((insert_reading store m t v).2 = false
      ↔ store.any (matches_key m t) = true)
    ∧ (insert_reading (insert_reading store m t v).1 m t v').2 = false
    ∧ (insert_reading (insert_reading store m t v).1 m t v').1
        = (insert_reading store m t v).1
    ∧ (store.any (matches_key m t) = false →
        stored_volume (insert_reading store m t v).1 m t = some v) := by
  have hkey : matches_key m t ⟨m, t, v⟩ = true := by
    simp [matches_key]
  by_cases h : store.any (matches_key m t) = true
  · simp [insert_reading, h]
  · have hfind : store.find? (matches_key m t) = none := by
      rw [List.find?_eq_none]
      intro x hx hpx
      exact h (List.any_eq_true.mpr ⟨x, hx, hpx⟩)
    simp [insert_reading, h, List.any_append, hkey, stored_volume,
      List.find?_append, hfind, matches_key]

/-- Witness for C8 at a concrete input (empty table, then a duplicate
key with a different volume). -/
theorem insert_reading_duplicate_key_witness :
    ((insert_reading [] "MTR-001" 0 100).2 = false
      ↔ List.any [] (matches_key "MTR-001" 0) = true)
    ∧ (insert_reading (insert_reading [] "MTR-001" 0 100).1
        "MTR-001" 0 200).2 = false
    ∧ (insert_reading (insert_reading [] "MTR-001" 0 100).1
        "MTR-001" 0 200).1 = (insert_reading [] "MTR-001" 0 100).1
    ∧ stored_volume (insert_reading [] "MTR-001" 0 100).1 "MTR-001" 0
        = some 100 :=
  ⟨(insert_reading_duplicate_key [] "MTR-001" 0 100 200).1,
   (insert_reading_duplicate_key [] "MTR-001" 0 100 200).2.1,
   (insert_reading_duplicate_key [] "MTR-001" 0 100 200).2.2.1,
   (insert_reading_duplicate_key [] "MTR-001" 0 100 200).2.2.2 rfl⟩

/-! ### Watermark lemmas

The watermark component of the monitor is a fold that keeps the last
applied id; the lemmas below work at the level of id lists and are then
transported to `monitor_pass`/`monitor_run`. -/

lemma foldl_keep_last (l : List ℕ) (w : ℕ) :
    l.foldl (fun _ i => i) w = l.getLastD w := by
  induction l generalizing w with
  | nil => rfl
  | cons a l ih => rw [List.foldl_cons, List.getLastD_cons]; exact ih a

lemma getLastD_mem (l : List ℕ) (d : ℕ) : l = [] ∨ l.getLastD d ∈ l := by
  induction l generalizing d with
  | nil => exact Or.inl rfl
  | cons a l ih =>
    refine Or.inr ?_
    rw [List.getLastD_cons]
    rcases ih a with h | h
    · subst h; exact List.mem_singleton.mpr rfl
    · exact List.mem_cons_of_mem a h

lemma le_getLastD_of_sorted {l : List ℕ} (hl : l.Pairwise (· < ·))
    {x : ℕ} (hx : x ∈ l) (d : ℕ) : x ≤ l.getLastD d := by
  induction l generalizing d with
  | nil => cases hx
  | cons a l ih =>
    rw [List.getLastD_cons]
    rw [List.pairwise_cons] at hl
    rcases List.mem_cons.mp hx with rfl | hx
    · rcases getLastD_mem l x with h | h
      · rw [h]; rfl
      · exact le_of_lt (hl.1 _ h)
    · exact ih hl.2 hx a

/-- The ids a single pass applies, as a take of a filter of the store's
id list. -/
lemma pass_applied_ids_eq (w : ℕ) (store : List DbRow) (k : ℕ) :
    pass_applied_ids w store k
      = ((store.map DbRow.id).filter (fun i => decide (w < i))).take k := by
  have hmf : ∀ l : List DbRow,
      (l.filter (fun row => decide (w < row.id))).map DbRow.id
        = (l.map DbRow.id).filter (fun i => decide (w < i)) := by
    intro l
    induction l with
    | nil => rfl
    | cons a l ih =>
      by_cases h : decide (w < a.id) = true <;>
        simp [List.filter_cons, h, ih]
  rw [pass_applied_ids, get_unprocessed_readings, List.map_take, hmf]

lemma mem_pass_applied {w : ℕ} {store : List DbRow} {k x : ℕ}
    (hx : x ∈ pass_applied_ids w store k) :
    x ∈ store.map DbRow.id ∧ w < x := by
  rw [pass_applied_ids_eq] at hx
  have hx' := List.mem_of_mem_take hx
  rw [List.mem_filter] at hx'
  exact ⟨hx'.1, of_decide_eq_true hx'.2⟩

lemma pass_applied_sorted {store : List DbRow}
    (hs : (store.map DbRow.id).Pairwise (· < ·)) (w k : ℕ) :
    (pass_applied_ids w store k).Pairwise (· < ·) := by
  rw [pass_applied_ids_eq]
  exact ((hs.filter _).sublist (List.take_sublist _ _))

lemma pass_watermark_ge (w : ℕ) (store : List DbRow) (k : ℕ) :
    w ≤ pass_watermark w store k := by
  rw [pass_watermark, foldl_keep_last]
  rcases getLastD_mem (pass_applied_ids w store k) w with h | h
  · rw [h]; rfl
  · exact le_of_lt (mem_pass_applied h).2

lemma le_pass_watermark_of_applied {store : List DbRow}
    (hs : (store.map DbRow.id).Pairwise (· < ·)) {w k x : ℕ}
    (hx : x ∈ pass_applied_ids w store k) : x ≤ pass_watermark w store k := by
  rw [pass_watermark, foldl_keep_last]
  exact le_getLastD_of_sorted (pass_applied_sorted hs w k) hx w

/-- In a strictly sorted list, an element bounded by the last element of
the `k`-prefix lies in that prefix. -/
lemma take_no_skip {l : List ℕ} (hsl : l.Pairwise (· < ·)) {k x w : ℕ}
    (hxl : x ∈ l) (hgt : w < x) (hle : x ≤ (l.take k).getLastD w) :
    x ∈ l.take k := by
  have hsplit : l.take k ++ l.drop k = l := List.take_append_drop k l
  have hxl' : x ∈ l.take k ++ l.drop k := by rw [hsplit]; exact hxl
  rcases List.mem_append.mp hxl' with h | h
  · exact h
  · exfalso
    have hp : (l.take k ++ l.drop k).Pairwise (· < ·) := by
      rw [hsplit]; exact hsl
    rw [List.pairwise_append] at hp
    rcases getLastD_mem (l.take k) w with htk | htk
    · rw [htk] at hle
      simp only [List.getLastD] at hle
      omega
    · have := hp.2.2 _ htk _ h
      omega

/-- A single pass never skips: any stored id above the old watermark and
at most the new watermark was applied by that pass. -/
lemma pass_no_skip {store : List DbRow}
    (hs : (store.map DbRow.id).Pairwise (· < ·)) {w k x : ℕ}
    (hmem : x ∈ store.map DbRow.id) (hgt : w < x)
    (hle : x ≤ pass_watermark w store k) :
    x ∈ pass_applied_ids w store k := by
  have hxl : x ∈ (store.map DbRow.id).filter (fun i => decide (w < i)) :=
    List.mem_filter.mpr ⟨hmem, decide_eq_true hgt⟩
  have hle' : x ≤ ((((store.map DbRow.id).filter
      (fun i => decide (w < i))).take k)).getLastD w := by
    rw [pass_watermark, foldl_keep_last, pass_applied_ids_eq] at hle
    exact hle
  rw [pass_applied_ids_eq]
  exact take_no_skip (hs.filter _) hxl hgt hle'

/-- The watermark after a pass is independent of the state table: it is
the fold of the applied ids. -/
lemma monitor_pass_snd (states : StateTable) (w : ℕ) (store : List DbRow)
    (k : ℕ) : (monitor_pass states w store k).2 = pass_watermark w store k := by
  rw [monitor_pass, pass_watermark, pass_applied_ids]
  generalize (get_unprocessed_readings store w).take k = rows
  induction rows generalizing states w with
  | nil => rfl
  | cons a rows ih =>
    rw [List.foldl_cons, List.map_cons, List.foldl_cons]
    exact ih _ _

/-- The watermark after a run is the fold of all applied ids. -/
lemma monitor_run_snd (store : List DbRow) (ks : List ℕ) :
    ∀ (states : StateTable) (w : ℕ),
      (monitor_run states w store ks).2
        = (run_applied_ids w store ks).foldl (fun _ i => i) w := by
  induction ks with
  | nil => intro states w; rfl
  | cons k ks ih =>
    intro states w
    rw [monitor_run, run_applied_ids, List.foldl_append, ih,
      monitor_pass_snd]
    rfl

lemma run_watermark_cons (w : ℕ) (store : List DbRow) (k : ℕ)
    (ks : List ℕ) :
    (run_applied_ids w store (k :: ks)).foldl (fun _ i => i) w
      = (run_applied_ids (pass_watermark w store k) store ks).foldl
          (fun _ i => i) (pass_watermark w store k) := by
  rw [run_applied_ids, List.foldl_append]
  rfl

lemma run_watermark_ge (store : List DbRow) (ks : List ℕ) :
    ∀ w : ℕ, w ≤ (run_applied_ids w store ks).foldl (fun _ i => i) w := by
  induction ks with
  | nil => intro w; rfl
  | cons k ks ih =>
    intro w
    rw [run_watermark_cons]
    exact le_trans (pass_watermark_ge w store k) (ih _)

lemma mem_run_applied {store : List DbRow} (ks : List ℕ) :
    ∀ {w x : ℕ}, x ∈ run_applied_ids w store ks →
      x ∈ store.map DbRow.id ∧ w < x := by
  induction ks with
  | nil => intro w x hx; cases hx
  | cons k ks ih =>
    intro w x hx
    rw [run_applied_ids] at hx
    rcases List.mem_append.mp hx with h | h
    · exact ⟨(mem_pass_applied h).1, (mem_pass_applied h).2⟩
    · have := ih h
      exact ⟨this.1, lt_of_le_of_lt (pass_watermark_ge w store k) this.2⟩

lemma run_applied_sorted {store : List DbRow}
    (hs : (store.map DbRow.id).Pairwise (· < ·)) (ks : List ℕ) :
    ∀ w : ℕ, (run_applied_ids w store ks).Pairwise (· < ·) := by
  induction ks with
  | nil => intro w; exact List.Pairwise.nil
  | cons k ks ih =>
    intro w
    rw [run_applied_ids, List.pairwise_append]
    refine ⟨pass_applied_sorted hs w k, ih _, ?_⟩
    intro a ha b hb
    exact lt_of_le_of_lt (le_pass_watermark_of_applied hs ha)
      (mem_run_applied ks hb).2

lemma run_no_skip {store : List DbRow}
    (hs : (store.map DbRow.id).Pairwise (· < ·)) (ks : List ℕ) :
    ∀ {w x : ℕ}, x ∈ store.map DbRow.id → w < x →
      x ≤ (run_applied_ids w store ks).foldl (fun _ i => i) w →
      x ∈ run_applied_ids w store ks := by
  induction ks with
  | nil =>
    intro w x _ hgt hle
    simp only [run_applied_ids, List.foldl_nil] at hle
    exact absurd hle (by omega)
  | cons k ks ih =>
    intro w x hmem hgt hle
    rw [run_watermark_cons] at hle
    rw [run_applied_ids]
    by_cases h1 : x ≤ pass_watermark w store k
    · exact List.mem_append.mpr (Or.inl (pass_no_skip hs hmem hgt h1))
    · exact List.mem_append.mpr (Or.inr (ih hmem (by omega) hle))

/-- C3: across every sequence of Monitor passes over a fixed Reading
Store with strictly increasing ids (each pass possibly stopping early),
the watermark never regresses; the applied ids are strictly ascending,
each above the starting watermark and present in the store; the final
watermark is the fold that overwrote it with each applied id in turn;
and no stored id between the starting watermark and the final watermark
is skipped. -/
theorem watermark_monotone_no_skip (store : List DbRow)
    (hs : (store.map DbRow.id).Pairwise (· < ·))
    (states : StateTable) (w : ℕ) (ks : List ℕ) :
    w ≤ (monitor_run states w store ks).2
    ∧ (run_applied_ids w store ks).Pairwise (· < ·)
    ∧ (monitor_run states w store ks).2
        = (run_applied_ids w store ks).foldl (fun _ i => i) w
    ∧ (∀ i ∈ run_applied_ids w store ks, w < i ∧ i ∈ store.map DbRow.id)
    ∧ (∀ i ∈ store.map DbRow.id, w < i →
        i ≤ (monitor_run states w store ks).2 →
        i ∈ run_applied_ids w store ks) := by
  have hsnd := monitor_run_snd store ks states w
  refine ⟨?_, run_applied_sorted hs ks w, hsnd, ?_, ?_⟩
  · rw [hsnd]; exact run_watermark_ge store ks w
  · intro i hi
    exact ⟨(mem_run_applied ks hi).2, (mem_run_applied ks hi).1⟩
  · intro i hi hgt hle
    rw [hsnd] at hle
    exact run_no_skip hs ks hi hgt hle

/-- Witness for C3 on a concrete three-row store, first pass applying
two readings, second pass finishing. -/
theorem watermark_monotone_no_skip_witness :
    (monitor_run (fun _ => none) 0
        [⟨1, "a", 0, 1⟩, ⟨2, "b", 0, 1⟩, ⟨4, "a", 3600, 2⟩] [2, 5]).2
      = (run_applied_ids 0
          [⟨1, "a", 0, 1⟩, ⟨2, "b", 0, 1⟩, ⟨4, "a", 3600, 2⟩]
          [2, 5]).foldl (fun _ i => i) 0 :=
  (watermark_monotone_no_skip
    [⟨1, "a", 0, 1⟩, ⟨2, "b", 0, 1⟩, ⟨4, "a", 3600, 2⟩]
    (by decide) (fun _ => none) 0 [2, 5]).2.2.1

end WaterLeak
